import Mathlib

/-!
# Expression evaluation of the evaluator package

A shallow embedding of `evaluator/expression_evaluation.go`.

Go values of interface type `object.Object` are pointers; they are embedded as
addresses into an explicit heap of object cells, so that identity comparison
(`right == initializer.FALSE`) and allocation (`&object.IntegerObject{...}`)
keep their meaning.  A Go panic is embedded as the error side of `Except`.
-/

namespace Evaluator

/-! ## Data model -/

/-- Address of an object cell in the heap: the embedding of a Go pointer held in
an `object.Object` interface value.  An address outside the heap stands for the
nil interface value. -/
abbrev Addr := Nat

/-- Address of an environment (`*object.Environment`) in the state. -/
abbrev EnvAddr := Nat

/-- The kinds answered by `Type()`.  `INTEGER_OBJ`, `BOOLEAN_OBJ` and `STRING_OBJ`
are the constants the source compares against; the others follow the value kinds
of the data model. -/
inductive ObjectType where
  | INTEGER_OBJ
  | BOOLEAN_OBJ
  | STRING_OBJ
  | NULL_OBJ
  | ERROR_OBJ
  | RETURN_VALUE_OBJ
  | METHOD_OBJ
  | CLASS_OBJ
  | BASE_OBJECT_OBJ
  deriving DecidableEq, Repr

/-- Modelled from the spec: the object cells of package `object` (absent from the
sources at hand), after the data model: Integer(int64), Boolean(bool),
String(text), Null, Error(message), Class(name, method tables, superclass),
Object(class, instance-variable mapping), and the return-value carrier.  The
primitive cells carry the class tag the source attaches on construction. -/
inductive Object where
  | IntegerObject (Value : Int) (Class : Addr)
  | BooleanObject (Value : Bool) (Class : Addr)
  | StringObject (Value : String) (Class : Addr)
  | Null
  | Error (Message : String)
  | ReturnValue (Value : Addr)
  | Method (Name : String)
  | RClass (Name : String) (Methods : EnvAddr) (ClassMethods : EnvAddr) (SuperClass : Option Addr)
  | RObject (Class : Addr) (InstanceVariables : EnvAddr)
  deriving DecidableEq, Repr

/-- The method `Type()` of each object cell. -/
def Object.Type : Object → ObjectType
  | .IntegerObject _ _ => .INTEGER_OBJ
  | .BooleanObject _ _ => .BOOLEAN_OBJ
  | .StringObject _ _ => .STRING_OBJ
  | .Null => .NULL_OBJ
  | .Error _ => .ERROR_OBJ
  | .ReturnValue _ => .RETURN_VALUE_OBJ
  | .Method _ => .METHOD_OBJ
  | .RClass _ _ _ _ => .CLASS_OBJ
  | .RObject _ _ => .BASE_OBJECT_OBJ

/-- Modelled from the spec: a binding environment, name to value. -/
abbrev Environment := List (String × Addr)

/-- The ways the Go runtime aborts the functions embedded here. -/
inductive Panic where
  | nilDereference
  | interfaceConversion
  | integerDivideByZero
  deriving DecidableEq, Repr

/-- The mutable store: object cells and environments, each addressed by its
index.  Allocation appends, so a fresh address differs from every live one. -/
structure State where
  heap : List Object
  envs : List Environment
  deriving DecidableEq, Repr

/-- Result of a call: a panic, or a returned value with the store after the call. -/
abbrev Result (α : Type) := Except Panic (α × State)

/-- The package-level variables of package `initializer` that the source reads:
the shared singletons and the class tags.  The package is not among the sources
at hand, so they are taken as a parameter. -/
structure Initializer where
  TRUE : Addr
  FALSE : Addr
  NULL : Addr
  IntegerClass : Addr
  BooleanClass : Addr
  StringClass : Addr
  deriving DecidableEq, Repr

/-- Modelled from the spec: a scope pairs a binding environment with the current
receiver. -/
structure Scope where
  Env : EnvAddr
  Self : Addr
  deriving DecidableEq, Repr

/-- Modelled from the spec: the if-expression node of package `ast`, with its
condition, consequence and optional alternative (a nil `Alternative` is `none`). -/
structure IfExpression (Node : Type) where
  Condition : Node
  Consequence : Node
  Alternative : Option Node

/-! ## Machine integers -/

/-- Reduction of an integer to int64, two's complement. -/
def wrap64 (x : Int) : Int := (x + 2 ^ 63) % 2 ^ 64 - 2 ^ 63

/-- The range of int64. -/
def isInt64 (x : Int) : Prop := -(2 ^ 63) ≤ x ∧ x < 2 ^ 63

instance (x : Int) : Decidable (isInt64 x) := by unfold isInt64; infer_instance

/-! ## Store access -/

/-- Dereference an interface value; the nil interface has no cell. -/
def State.deref (s : State) (a : Addr) : Option Object := s.heap[a]?

/-- The expression `&T{...}`: a new cell at a fresh address. -/
def State.alloc (s : State) (o : Object) : Addr × State :=
  (s.heap.length, { s with heap := s.heap ++ [o] })

/-- The call `obj.Type()` on an interface value; on nil it panics. -/
def typeOf (s : State) (a : Addr) : Except Panic ObjectType :=
  match s.deref a with
  | some o => .ok o.Type
  | none => .error .nilDereference

/-- Modelled from the spec: the error constructor `newError` of this package
(absent from the sources at hand) builds an Error value from the formatted
message. -/
def newError (s : State) (message : String) : Result Addr :=
  .ok (s.alloc (.Error message))

/-- Modelled from the spec: `isError` of this package (absent from the sources
at hand) tells whether a value is an Error value. -/
def isError (s : State) (a : Addr) : Bool :=
  match s.deref a with
  | some o => decide (o.Type = .ERROR_OBJ)
  | none => false

/-- Lexicographic order on byte sequences. -/
def bytesLt : List Nat → List Nat → Bool
  | [], [] => false
  | [], _ :: _ => true
  | _ :: _, [] => false
  | a :: as, b :: bs => if a < b then true else if b < a then false else bytesLt as bs

/-- The bytes of a string. -/
def stringBytes (t : String) : List Nat := t.toUTF8.data.toList.map UInt8.toNat

/-- Go's `<` on strings: bytewise lexicographic. -/
def stringLt (a b : String) : Bool := bytesLt (stringBytes a) (stringBytes b)

/-! ## expression_evaluation.go -/

section Source

variable (ini : Initializer) (fmtType : ObjectType → String)

/-- Source: `evalBangPrefixExpression`: a switch on the identity of the operand. -/
def evalBangPrefixExpression (right : Addr) : Addr :=
  if right = ini.FALSE then ini.TRUE
  else if right = ini.NULL then ini.TRUE
  else ini.FALSE

/-- Source: `evalMinusPrefixExpression`. -/
def evalMinusPrefixExpression (s : State) (right : Addr) : Result Addr :=
  match typeOf s right with
  | .error p => .error p
  | .ok t =>
    if t ≠ .INTEGER_OBJ then
      newError s ("unknown operator: " ++ "-" ++ fmtType t)
    else
      match s.deref right with
      | some (.IntegerObject value _) =>
        .ok (s.alloc (.IntegerObject (wrap64 (-value)) ini.IntegerClass))
      | _ => .error .interfaceConversion

/-- Source: `evalPrefixExpression`. -/
def evalPrefixExpression (s : State) (operator : String) (right : Addr) : Result Addr :=
  if operator = "!" then .ok (evalBangPrefixExpression ini right, s)
  else if operator = "-" then evalMinusPrefixExpression ini fmtType s right
  else
    match typeOf s right with
    | .error p => .error p
    | .ok t => newError s ("unknown operator: " ++ operator ++ fmtType t)

/-- Source: `evalIntegerInfixExpression`.  Both operands are asserted to be
Integer cells; `/` is the host division, which panics on a zero divisor. -/
def evalIntegerInfixExpression (s : State) (left : Addr) (operator : String) (right : Addr) :
    Result Addr :=
  match s.deref left with
  | some (.IntegerObject leftValue leftClass) =>
    match s.deref right with
    | some (.IntegerObject rightValue rightClass) =>
      if operator = "+" then
        .ok (s.alloc (.IntegerObject (wrap64 (leftValue + rightValue)) ini.IntegerClass))
      else if operator = "-" then
        .ok (s.alloc (.IntegerObject (wrap64 (leftValue - rightValue)) ini.IntegerClass))
      else if operator = "*" then
        .ok (s.alloc (.IntegerObject (wrap64 (leftValue * rightValue)) ini.IntegerClass))
      else if operator = "/" then
        if rightValue = 0 then .error .integerDivideByZero
        else .ok (s.alloc (.IntegerObject (wrap64 (Int.tdiv leftValue rightValue)) ini.IntegerClass))
      else if operator = ">" then
        .ok (s.alloc (.BooleanObject (decide (leftValue > rightValue)) ini.BooleanClass))
      else if operator = "<" then
        .ok (s.alloc (.BooleanObject (decide (leftValue < rightValue)) ini.BooleanClass))
      else if operator = "==" then
        .ok (s.alloc (.BooleanObject (decide (leftValue = rightValue)) ini.BooleanClass))
      else if operator = "!=" then
        .ok (s.alloc (.BooleanObject (decide (leftValue ≠ rightValue)) ini.BooleanClass))
      else
        newError s ("unknown operator: " ++ fmtType (Object.IntegerObject leftValue leftClass).Type ++ " "
          ++ operator ++ " " ++ fmtType (Object.IntegerObject rightValue rightClass).Type)
    | _ => .error .interfaceConversion
  | _ => .error .interfaceConversion

/-- Source: `evalBooleanInfixExpression`. -/
def evalBooleanInfixExpression (s : State) (left : Addr) (operator : String) (right : Addr) :
    Result Addr :=
  match s.deref left with
  | some (.BooleanObject leftValue leftClass) =>
    match s.deref right with
    | some (.BooleanObject rightValue rightClass) =>
      if operator = "==" then
        if leftValue = rightValue then .ok (ini.TRUE, s) else .ok (ini.FALSE, s)
      else if operator = "!=" then
        if leftValue ≠ rightValue then .ok (ini.TRUE, s) else .ok (ini.FALSE, s)
      else
        newError s ("unknown operator: " ++ fmtType (Object.BooleanObject leftValue leftClass).Type ++ " "
          ++ operator ++ " " ++ fmtType (Object.BooleanObject rightValue rightClass).Type)
    | _ => .error .interfaceConversion
  | _ => .error .interfaceConversion

/-- Source: `evalStringInfixExpression`. -/
def evalStringInfixExpression (s : State) (left : Addr) (operator : String) (right : Addr) :
    Result Addr :=
  match s.deref left with
  | some (.StringObject leftValue leftClass) =>
    match s.deref right with
    | some (.StringObject rightValue rightClass) =>
      if operator = "+" then
        .ok (s.alloc (.StringObject (leftValue ++ rightValue) ini.StringClass))
      else if operator = ">" then
        if stringLt rightValue leftValue then .ok (ini.TRUE, s) else .ok (ini.FALSE, s)
      else if operator = "<" then
        if stringLt leftValue rightValue then .ok (ini.TRUE, s) else .ok (ini.FALSE, s)
      else if operator = "==" then
        if leftValue = rightValue then .ok (ini.TRUE, s) else .ok (ini.FALSE, s)
      else if operator = "!=" then
        if leftValue ≠ rightValue then .ok (ini.TRUE, s) else .ok (ini.FALSE, s)
      else
        newError s ("unknown operator: " ++ fmtType (Object.StringObject leftValue leftClass).Type ++ " "
          ++ operator ++ " " ++ fmtType (Object.StringObject rightValue rightClass).Type)
    | _ => .error .interfaceConversion
  | _ => .error .interfaceConversion

/-- Source: `evalInfixExpression`: dispatch on the pair of operand kinds. -/
def evalInfixExpression (s : State) (left : Addr) (operator : String) (right : Addr) :
    Result Addr :=
  match typeOf s left, typeOf s right with
  | .error p, _ => .error p
  | .ok _, .error p => .error p
  | .ok lt, .ok rt =>
    if lt = .INTEGER_OBJ ∧ rt = .INTEGER_OBJ then
      evalIntegerInfixExpression ini fmtType s left operator right
    else if lt = .BOOLEAN_OBJ ∧ rt = .BOOLEAN_OBJ then
      evalBooleanInfixExpression ini fmtType s left operator right
    else if lt = .STRING_OBJ ∧ rt = .STRING_OBJ then
      evalStringInfixExpression ini fmtType s left operator right
    else
      newError s ("type mismatch: " ++ fmtType lt ++ " " ++ operator ++ " " ++ fmtType rt)

/-- Source: `evalIfExpression`.  `Eval`, the general evaluator of this package,
is not among the sources at hand and is taken as a parameter.  The test
`condition.Type() == INTEGER_OBJ || condition.(*BooleanObject).Value` asserts the
Boolean cell only when the condition is not an Integer. -/
def evalIfExpression {Node : Type} (Eval : Node → Scope → State → Result Addr)
    (exp : IfExpression Node) (scope : Scope) (s : State) : Result Addr :=
  match Eval exp.Condition scope s with
  | .error p => .error p
  | .ok (condition, s1) =>
    if isError s1 condition then .ok (condition, s1)
    else
      match typeOf s1 condition with
      | .error p => .error p
      | .ok t =>
        let test : Except Panic Bool :=
          if t = .INTEGER_OBJ then .ok true
          else
            match s1.deref condition with
            | some (.BooleanObject value _) => .ok value
            | _ => .error .interfaceConversion
        match test with
        | .error p => .error p
        | .ok true => Eval exp.Consequence scope s1
        | .ok false =>
          match exp.Alternative with
          | some alternative => Eval alternative scope s1
          | none => .ok (ini.NULL, s1)

end Source

/-! ## Sample data -/

/-- A store as package `initializer` leaves it: the three singletons and the
three class tags, each with empty method tables. -/
def sampleState : State :=
  { heap := [.BooleanObject true 4, .BooleanObject false 4, .Null,
             .RClass "Integer" 0 1 none, .RClass "Boolean" 2 3 none, .RClass "String" 4 5 none],
    envs := [[], [], [], [], [], []] }

/-- The addresses of the singletons and class tags in `sampleState`. -/
def sampleIni : Initializer :=
  { TRUE := 0, FALSE := 1, NULL := 2, IntegerClass := 3, BooleanClass := 4, StringClass := 5 }

/-- A rendering of the kinds, for concrete runs. -/
def sampleFmt : ObjectType → String
  | .INTEGER_OBJ => "INTEGER"
  | .BOOLEAN_OBJ => "BOOLEAN"
  | .STRING_OBJ => "STRING"
  | .NULL_OBJ => "NULL"
  | .ERROR_OBJ => "ERROR"
  | .RETURN_VALUE_OBJ => "RETURN_VALUE"
  | .METHOD_OBJ => "METHOD"
  | .CLASS_OBJ => "CLASS"
  | .BASE_OBJECT_OBJ => "BASE_OBJECT"

/-- The sample store extended with the given cells, at addresses 6, 7, ... -/
def sampleWith (cells : List Object) : State :=
  { sampleState with heap := sampleState.heap ++ cells }

/-- Modelled from the spec: what package `initializer` (absent from the sources
at hand) establishes at startup and nothing changes afterwards: the shared
instances for true, false and null are live cells of their kinds. -/
def Initializer.Singletons (ini : Initializer) (s : State) : Prop :=
  (∃ c, s.deref ini.TRUE = some (.BooleanObject true c))
    ∧ (∃ c, s.deref ini.FALSE = some (.BooleanObject false c))
    ∧ s.deref ini.NULL = some .Null

/-- A node that evaluates to a value already in the store: the least evaluator
to run `evalIfExpression` on. -/
def evalStored : Addr → Scope → State → Result Addr :=
  fun a _ s => .ok (a, s)

/-- Nodes for concrete runs: a stored value, or an if-expression over stored
values. -/
inductive SampleNode where
  | value (a : Addr)
  | ifExp (e : IfExpression Addr)

/-- A fragment of the general evaluator for concrete runs: an if-expression
node is handed to `evalIfExpression`. -/
def sampleEval (ini : Initializer) : SampleNode → Scope → State → Result Addr
  | .value a, _, s => .ok (a, s)
  | .ifExp e, scope, s => evalIfExpression ini evalStored e scope s

/-- A scope over the sample store. -/
def sampleScope : Scope := { Env := 0, Self := 3 }

/-- The if-expression whose condition is itself an if-expression with a false
condition and no alternative. -/
def nullConditionIf : IfExpression SampleNode :=
  { Condition := .ifExp { Condition := 1, Consequence := 0, Alternative := none },
    Consequence := .value 0,
    Alternative := some (.value 1) }

/-! ## Name resolution -/

/-- Modelled from the spec: the identifier node of package `ast`, carrying its
name in `Value`. -/
structure Identifier where
  Value : String
  deriving DecidableEq, Repr

/-- Modelled from the spec: the constant node of package `ast`. -/
structure Constant where
  Value : String
  deriving DecidableEq, Repr

/-- Modelled from the spec: the instance-variable node of package `ast`. -/
structure InstanceVariable where
  Value : String
  deriving DecidableEq, Repr

/-- Modelled from the spec: `Environment.Get(name) -> (Value, found)` of package
`object` (absent from the sources at hand): the binding of the name, if any.  A
nil environment has no store to read. -/
def envGet (s : State) (e : EnvAddr) (name : String) : Except Panic (Option Addr) :=
  match s.envs[e]? with
  | some env => .ok (env.lookup name)
  | none => .error .nilDereference

/-- Modelled from the spec: the mutation of a mapping by code outside this file
(assignment, instance-variable writes): the name is bound to the value from then
on, in the environment shared by every holder of its address. -/
def envSet (s : State) (e : EnvAddr) (name : String) (v : Addr) : State :=
  match s.envs[e]? with
  | some env => { s with envs := s.envs.set e ((name, v) :: env) }
  | none => s

/-- Modelled from the spec: `unwrapReturnValue` of this package (absent from the
sources at hand) strips the return-value carrier and leaves any other value as
it is. -/
def unwrapReturnValue (s : State) (a : Addr) : Addr :=
  match s.deref a with
  | some (.ReturnValue v) => v
  | _ => a

/-- The collaborators of the name resolver that are not among the sources at
hand, taken as parameters: the inspection string of a receiver, the two method
lookups (absent method: `none`), and the two method invocations of this
package. -/
structure Collaborators where
  Inspect : State → Addr → Except Panic String
  LookupClassMethod : State → Addr → String → Option Addr
  LookupInstanceMethod : State → Addr → String → Option Addr
  evalClassMethod : Addr → Addr → List Addr → State → Result Addr
  evalInstanceMethod : Addr → Addr → List Addr → State → Result Addr

/-- Source: `evalIdentifier`.  The error value is built before the receiver is
examined, as in the source. -/
def evalIdentifier (om : Collaborators) (node : Identifier) (scope : Scope) (s : State) :
    Result Addr :=
  match envGet s scope.Env node.Value with
  | .error p => .error p
  | .ok (some val) => .ok (val, s)
  | .ok none =>
    let receiver := scope.Self
    let method_name := node.Value
    let args : List Addr := []
    match om.Inspect s receiver with
    | .error p => .error p
    | .ok str =>
      match newError s ("undefined local variable or method `" ++ method_name ++ "' for " ++ str) with
      | .error p => .error p
      | .ok (error, s1) =>
        match s1.deref receiver with
        | some (.RClass _ _ _ _) =>
          match om.LookupClassMethod s1 receiver method_name with
          | none => .ok (error, s1)
          | some method =>
            match om.evalClassMethod receiver method args s1 with
            | .error p => .error p
            | .ok (evaluated, s2) => .ok (unwrapReturnValue s2 evaluated, s2)
        | some (.RObject cls _) =>
          match om.LookupInstanceMethod s1 cls method_name with
          | none => .ok (error, s1)
          | some method =>
            match om.evalInstanceMethod receiver method args s1 with
            | .error p => .error p
            | .ok (evaluated, s2) => .ok (unwrapReturnValue s2 evaluated, s2)
        | _ => .ok (error, s1)

/-- Source: `evalConstant`. -/
def evalConstant (om : Collaborators) (node : Constant) (scope : Scope) (s : State) :
    Result Addr :=
  match envGet s scope.Env node.Value with
  | .error p => .error p
  | .ok (some val) => .ok (val, s)
  | .ok none =>
    match om.Inspect s scope.Self with
    | .error p => .error p
    | .ok str => newError s ("constant " ++ node.Value ++ " not found in: " ++ str)

/-- Source: `evalInstanceVariable`.  The receiver is asserted to be an Object. -/
def evalInstanceVariable (om : Collaborators) (node : InstanceVariable) (scope : Scope)
    (s : State) : Result Addr :=
  match s.deref scope.Self with
  | some (.RObject _ instanceVariables) =>
    match envGet s instanceVariables node.Value with
    | .error p => .error p
    | .ok (some val) => .ok (val, s)
    | .ok none =>
      match om.Inspect s scope.Self with
      | .error p => .error p
      | .ok str =>
        newError s ("instance variable " ++ node.Value ++ " not found in: " ++ str)
  | _ => .error .interfaceConversion

/-- A store for concrete runs of the name resolver: the sample store extended
with a class `Foo` (address 6), an instance of it (7), two method cells (8 and
11), an Integer (9) and a return-value carrier holding it (10).  Environment 6
is the instance-method table of `Foo`, 7 its class-method table, 8 the
instance variables of the object, 9 the environment of the scope, which binds
`bar`, also the name of a method. -/
def nameState : State :=
  { heap := sampleState.heap ++
      [.RClass "Foo" 6 7 none, .RObject 6 8, .Method "bar", .IntegerObject 42 3,
       .ReturnValue 9, .Method "broken"],
    envs := sampleState.envs ++
      [[("bar", 8), ("baz", 8)], [("bar", 8), ("baz", 8), ("broken", 11)], [],
       [("x", 9), ("bar", 9)]] }

/-- Collaborators for concrete runs: a class inspects as its name and an object
as its class address; methods are looked up in the tables of the class cell; the
method `broken` has the body `-true`, every other method returns the Integer at
address 9 through the carrier at address 10. -/
def sampleOm : Collaborators :=
  { Inspect := fun s a =>
      match s.deref a with
      | some (.RClass name _ _ _) => .ok name
      | some _ => .ok "#<Object>"
      | none => .error .nilDereference,
    LookupClassMethod := fun s a name =>
      match s.deref a with
      | some (.RClass _ _ classMethods _) => (s.envs[classMethods]?).bind (List.lookup name)
      | _ => none,
    LookupInstanceMethod := fun s a name =>
      match s.deref a with
      | some (.RClass _ methods _ _) => (s.envs[methods]?).bind (List.lookup name)
      | _ => none,
    evalClassMethod := fun _ method _ s =>
      if s.deref method = some (.Method "broken") then
        evalPrefixExpression sampleIni sampleFmt s "-" sampleIni.TRUE
      else .ok (10, s),
    evalInstanceMethod := fun _ method _ s =>
      if s.deref method = some (.Method "broken") then
        evalPrefixExpression sampleIni sampleFmt s "-" sampleIni.TRUE
      else .ok (10, s) }

/-- The scope of a class body of `Foo`: the receiver is the class. -/
def classScope : Scope := { Env := 9, Self := 6 }

/-- The scope of a method of the instance: the receiver is the object. -/
def objectScope : Scope := { Env := 9, Self := 7 }

end Evaluator

/-! ## Arithmetic facts -/

namespace Evaluator

theorem wrap64_isInt64 (x : Int) : isInt64 (wrap64 x) := by
  unfold isInt64 wrap64
  constructor <;> omega

theorem wrap64_of_isInt64 {x : Int} (h : isInt64 x) : wrap64 x = x := by
  unfold isInt64 at h
  unfold wrap64
  omega

theorem wrap64_congruent (x : Int) : (wrap64 x - x) % 2 ^ 64 = 0 := by
  unfold wrap64
  omega

theorem tdiv_isInt64 {a b : Int} (ha : isInt64 a) (hb : b ≠ 0)
    (hne : ¬ (a = -(2 ^ 63) ∧ b = -1)) : isInt64 (Int.tdiv a b) := by
  unfold isInt64 at *
  have hq : (Int.tdiv a b).natAbs = a.natAbs / b.natAbs := Int.natAbs_tdiv a b
  by_cases h1 : b = 1
  · subst h1
    simpa using ha
  · by_cases h2 : b = -1
    · subst h2
      have : Int.tdiv a (-1) = -a := by simp
      rw [this]
      constructor <;> omega
    · have hb2 : 2 ≤ b.natAbs := by omega
      have hle : a.natAbs / b.natAbs ≤ a.natAbs / 2 := Nat.div_le_div_left hb2 (by decide)
      constructor <;> omega

theorem deref_typeOf {s : State} {a : Addr} {o : Object} (h : s.deref a = some o) :
    typeOf s a = .ok o.Type := by
  simp [typeOf, h]

end Evaluator

/-! ## Binary operators -/

namespace Evaluator

/-- C1: unless both operands are Integer, both Boolean or both String,
`evalInfixExpression` allocates and returns an Error value whose message is
"type mismatch: " followed by the left kind, a space, the operator, a space and
the right kind, whatever the operator is; the operand cells are left as they
were (nothing is coerced). -/
theorem evalInfixExpression_type_mismatch (ini : Initializer) (fmtType : ObjectType → String)
    (s : State) (left right : Addr) (op : String) (lo ro : Object)
    (hl : s.deref left = some lo) (hr : s.deref right = some ro)
    (hpair : ¬ ((lo.Type = .INTEGER_OBJ ∧ ro.Type = .INTEGER_OBJ)
      ∨ (lo.Type = .BOOLEAN_OBJ ∧ ro.Type = .BOOLEAN_OBJ)
      ∨ (lo.Type = .STRING_OBJ ∧ ro.Type = .STRING_OBJ))) :
    evalInfixExpression ini fmtType s left op right
      = .ok (s.heap.length,
          { s with heap := s.heap ++
              [.Error ("type mismatch: " ++ fmtType lo.Type ++ " " ++ op ++ " " ++ fmtType ro.Type)] }) := by
  simp only [not_or] at hpair
  obtain ⟨h1, h2, h3⟩ := hpair
  simp only [evalInfixExpression, deref_typeOf hl, deref_typeOf hr, if_neg h1, if_neg h2,
    if_neg h3, newError, State.alloc]

theorem evalInfixExpression_type_mismatch_witness :
    evalInfixExpression sampleIni sampleFmt
        (sampleWith [.IntegerObject 1 3, .StringObject "a" 5]) 6 "+" 7
      = .ok (8, sampleWith [.IntegerObject 1 3, .StringObject "a" 5,
          .Error "type mismatch: INTEGER + STRING"]) :=
  evalInfixExpression_type_mismatch sampleIni sampleFmt
    (sampleWith [.IntegerObject 1 3, .StringObject "a" 5]) 6 7 "+"
    (.IntegerObject 1 3) (.StringObject "a" 5) rfl rfl (by decide)

theorem evalInfixExpression_integer (ini : Initializer) (fmtType : ObjectType → String)
    (s : State) (left right : Addr) (a b : Int) (ca cb : Addr)
    (hl : s.deref left = some (.IntegerObject a ca))
    (hr : s.deref right = some (.IntegerObject b cb)) (op : String) :
    evalInfixExpression ini fmtType s left op right
      = evalIntegerInfixExpression ini fmtType s left op right := by
  simp [evalInfixExpression, deref_typeOf hl, deref_typeOf hr, Object.Type]

/-- C2: on two Integer operands holding 64-bit integers a and b, the operators
"+", "-" and "*" allocate and return an Integer value tagged with the Integer
class, whose value is a+b, a-b, a*b reduced to 64-bit two's complement (a 64-bit
integer congruent to the exact result modulo 2^64, and the exact result when that
is representable); the result is never an Error. -/
theorem evalInfixExpression_integer_arith (ini : Initializer) (fmtType : ObjectType → String)
    (s : State) (left right : Addr) (a b : Int) (ca cb : Addr)
    (hl : s.deref left = some (.IntegerObject a ca))
    (hr : s.deref right = some (.IntegerObject b cb))
    (_ha : isInt64 a) (_hb : isInt64 b) :
    (evalInfixExpression ini fmtType s left "+" right
        = .ok (s.heap.length,
            { s with heap := s.heap ++ [.IntegerObject (wrap64 (a + b)) ini.IntegerClass] }))
    ∧ (evalInfixExpression ini fmtType s left "-" right
        = .ok (s.heap.length,
            { s with heap := s.heap ++ [.IntegerObject (wrap64 (a - b)) ini.IntegerClass] }))
    ∧ (evalInfixExpression ini fmtType s left "*" right
        = .ok (s.heap.length,
            { s with heap := s.heap ++ [.IntegerObject (wrap64 (a * b)) ini.IntegerClass] }))
    ∧ (∀ x : Int, isInt64 (wrap64 x) ∧ (wrap64 x - x) % 2 ^ 64 = 0 ∧ (isInt64 x → wrap64 x = x))
    ∧ (∀ op, op = "+" ∨ op = "-" ∨ op = "*" →
        ∃ r s1, evalInfixExpression ini fmtType s left op right = .ok (r, s1)
          ∧ isError s1 r = false) := by
  have hp : evalInfixExpression ini fmtType s left "+" right
        = .ok (s.heap.length,
            { s with heap := s.heap ++ [.IntegerObject (wrap64 (a + b)) ini.IntegerClass] }) := by
    rw [evalInfixExpression_integer ini fmtType s left right a b ca cb hl hr]
    simp [evalIntegerInfixExpression, hl, hr, State.alloc]
  have hm : evalInfixExpression ini fmtType s left "-" right
        = .ok (s.heap.length,
            { s with heap := s.heap ++ [.IntegerObject (wrap64 (a - b)) ini.IntegerClass] }) := by
    rw [evalInfixExpression_integer ini fmtType s left right a b ca cb hl hr]
    simp [evalIntegerInfixExpression, hl, hr, State.alloc]
  have ht : evalInfixExpression ini fmtType s left "*" right
        = .ok (s.heap.length,
            { s with heap := s.heap ++ [.IntegerObject (wrap64 (a * b)) ini.IntegerClass] }) := by
    rw [evalInfixExpression_integer ini fmtType s left right a b ca cb hl hr]
    simp [evalIntegerInfixExpression, hl, hr, State.alloc]
  refine ⟨hp, hm, ht, fun x => ⟨wrap64_isInt64 x, wrap64_congruent x, wrap64_of_isInt64⟩, ?_⟩
  intro op hop
  rcases hop with h | h | h <;> subst h
  · exact ⟨_, _, hp, by simp [isError, State.deref, Object.Type]⟩
  · exact ⟨_, _, hm, by simp [isError, State.deref, Object.Type]⟩
  · exact ⟨_, _, ht, by simp [isError, State.deref, Object.Type]⟩

theorem evalInfixExpression_integer_arith_witness :
    evalInfixExpression sampleIni sampleFmt
        (sampleWith [.IntegerObject 9223372036854775807 3, .IntegerObject 1 3]) 6 "+" 7
      = .ok (8, sampleWith [.IntegerObject 9223372036854775807 3, .IntegerObject 1 3,
          .IntegerObject (-9223372036854775808) 3]) :=
  (evalInfixExpression_integer_arith sampleIni sampleFmt
    (sampleWith [.IntegerObject 9223372036854775807 3, .IntegerObject 1 3]) 6 7
    9223372036854775807 1 3 3 rfl rfl (by decide) (by decide)).1

/-- C3: on two Integer operands holding 64-bit integers a and b with b nonzero,
"/" allocates and returns an Integer value whose value is the quotient truncated
toward zero (its magnitude is the floor of |a|/|b| and its sign follows the signs
of a and b, so -7 over 2 is -3 and 7 over -2 is -3), reduced to 64-bit two's complement: the
quotient itself except for the most negative integer divided by -1, which yields
the most negative integer. -/
theorem evalInfixExpression_integer_div (ini : Initializer) (fmtType : ObjectType → String)
    (s : State) (left right : Addr) (a b : Int) (ca cb : Addr)
    (hl : s.deref left = some (.IntegerObject a ca))
    (hr : s.deref right = some (.IntegerObject b cb))
    (ha : isInt64 a) (_hb : isInt64 b) (hb0 : b ≠ 0) :
    evalInfixExpression ini fmtType s left "/" right
        = .ok (s.heap.length,
            { s with heap := s.heap ++ [.IntegerObject (wrap64 (Int.tdiv a b)) ini.IntegerClass] })
    ∧ (Int.tdiv a b).natAbs = a.natAbs / b.natAbs
    ∧ (0 ≤ a * b → 0 ≤ Int.tdiv a b) ∧ (a * b ≤ 0 → Int.tdiv a b ≤ 0)
    ∧ Int.tdiv (-7) 2 = -3 ∧ Int.tdiv 7 (-2) = -3
    ∧ (¬ (a = -(2 ^ 63) ∧ b = -1) → wrap64 (Int.tdiv a b) = Int.tdiv a b)
    ∧ (a = -(2 ^ 63) ∧ b = -1 → wrap64 (Int.tdiv a b) = -(2 ^ 63)) := by
  refine ⟨?_, Int.natAbs_tdiv a b, ?_, ?_, by decide, by decide, ?_, ?_⟩
  · rw [evalInfixExpression_integer ini fmtType s left right a b ca cb hl hr]
    simp [evalIntegerInfixExpression, hl, hr, State.alloc, hb0]
  · intro hab
    rcases Int.le_total 0 a with h0 | h0
    · rcases Int.le_total 0 b with h1 | h1
      · exact Int.tdiv_nonneg h0 h1
      · have hz : a = 0 := by
          by_contra hne
          have : a * b < 0 := Int.mul_neg_of_pos_of_neg (by omega) (by omega)
          omega
        subst hz
        simp
    · rcases Int.le_total 0 b with h1 | h1
      · have hz : a = 0 := by
          by_contra hne
          have : a * b < 0 := Int.mul_neg_of_neg_of_pos (by omega) (by omega)
          omega
        subst hz
        simp
      · have h := Int.tdiv_nonneg (a := -a) (b := -b) (by omega) (by omega)
        rwa [Int.neg_tdiv_neg] at h
  · intro hab
    rcases Int.le_total 0 a with h0 | h0
    · rcases Int.le_total 0 b with h1 | h1
      · have hz : a = 0 := by
          by_contra hne
          have : 0 < a * b := Int.mul_pos (by omega) (by omega)
          omega
        subst hz
        simp
      · exact Int.tdiv_nonpos h0 h1
    · rcases Int.le_total 0 b with h1 | h1
      · have h := Int.tdiv_nonneg (a := -a) (b := b) (by omega) h1
        rw [Int.neg_tdiv] at h
        omega
      · have hz : a = 0 := by
          by_contra hne
          have : 0 < a * b := Int.mul_pos_of_neg_of_neg (by omega) (by omega)
          omega
        subst hz
        simp
  · intro hne
    exact wrap64_of_isInt64 (tdiv_isInt64 ha hb0 hne)
  · rintro ⟨h1, h2⟩
    subst h1 h2
    decide

theorem evalInfixExpression_integer_div_witness :
    evalInfixExpression sampleIni sampleFmt
        (sampleWith [.IntegerObject (-7) 3, .IntegerObject 2 3]) 6 "/" 7
      = .ok (8, sampleWith [.IntegerObject (-7) 3, .IntegerObject 2 3, .IntegerObject (-3) 3]) :=
  (evalInfixExpression_integer_div sampleIni sampleFmt
    (sampleWith [.IntegerObject (-7) 3, .IntegerObject 2 3]) 6 7 (-7) 2 3 3 rfl rfl
    (by decide) (by decide) (by decide)).1

/-- C4 (the code at the failing input): on an Integer dividend and the Integer 0
as divisor, "/" ends in the runtime panic "integer divide by zero"; no Error value
is returned. -/
theorem evalInfixExpression_div_zero_panics (a : Int) :
    evalInfixExpression sampleIni sampleFmt
        (sampleWith [.IntegerObject a 3, .IntegerObject 0 3]) 6 "/" 7
      = .error .integerDivideByZero := by
  have h := evalInfixExpression_integer sampleIni sampleFmt
    (sampleWith [.IntegerObject a 3, .IntegerObject 0 3]) 6 7 a 0 3 3 rfl rfl "/"
  rw [h]
  simp [evalIntegerInfixExpression, sampleWith, sampleState, State.deref]

/-- C5: on two Integer operands holding 64-bit integers a and b, the operators
">", "<", "==" and "!=" return a Boolean value whose payload is the signed
comparison a>b, a<b, a=b, a≠b; in particular "==" on equal integers has payload
true. -/
theorem evalInfixExpression_integer_compare (ini : Initializer) (fmtType : ObjectType → String)
    (s : State) (left right : Addr) (a b : Int) (ca cb : Addr)
    (hl : s.deref left = some (.IntegerObject a ca))
    (hr : s.deref right = some (.IntegerObject b cb))
    (_ha : isInt64 a) (_hb : isInt64 b) :
    (evalInfixExpression ini fmtType s left ">" right
        = .ok (s.heap.length,
            { s with heap := s.heap ++ [.BooleanObject (decide (a > b)) ini.BooleanClass] }))
    ∧ (evalInfixExpression ini fmtType s left "<" right
        = .ok (s.heap.length,
            { s with heap := s.heap ++ [.BooleanObject (decide (a < b)) ini.BooleanClass] }))
    ∧ (evalInfixExpression ini fmtType s left "==" right
        = .ok (s.heap.length,
            { s with heap := s.heap ++ [.BooleanObject (decide (a = b)) ini.BooleanClass] }))
    ∧ (evalInfixExpression ini fmtType s left "!=" right
        = .ok (s.heap.length,
            { s with heap := s.heap ++ [.BooleanObject (decide (a ≠ b)) ini.BooleanClass] }))
    ∧ (a = b → evalInfixExpression ini fmtType s left "==" right
        = .ok (s.heap.length,
            { s with heap := s.heap ++ [.BooleanObject true ini.BooleanClass] })) := by
  have he : evalInfixExpression ini fmtType s left "==" right
        = .ok (s.heap.length,
            { s with heap := s.heap ++ [.BooleanObject (decide (a = b)) ini.BooleanClass] }) := by
    rw [evalInfixExpression_integer ini fmtType s left right a b ca cb hl hr]
    simp [evalIntegerInfixExpression, hl, hr, State.alloc]
  refine ⟨?_, ?_, he, ?_, ?_⟩
  · rw [evalInfixExpression_integer ini fmtType s left right a b ca cb hl hr]
    simp [evalIntegerInfixExpression, hl, hr, State.alloc]
  · rw [evalInfixExpression_integer ini fmtType s left right a b ca cb hl hr]
    simp [evalIntegerInfixExpression, hl, hr, State.alloc]
  · rw [evalInfixExpression_integer ini fmtType s left right a b ca cb hl hr]
    simp [evalIntegerInfixExpression, hl, hr, State.alloc]
  · intro hab
    rw [he]
    simp [hab]

theorem evalInfixExpression_integer_compare_witness :
    evalInfixExpression sampleIni sampleFmt
        (sampleWith [.IntegerObject (-1) 3, .IntegerObject 2 3]) 6 "<" 7
      = .ok (8, sampleWith [.IntegerObject (-1) 3, .IntegerObject 2 3, .BooleanObject true 4]) :=
  (evalInfixExpression_integer_compare sampleIni sampleFmt
    (sampleWith [.IntegerObject (-1) 3, .IntegerObject 2 3]) 6 7 (-1) 2 3 3 rfl rfl
    (by decide) (by decide)).2.1

end Evaluator

/-! ## Identity of Boolean results -/

namespace Evaluator

/-- C6 (the code at the failing input): a comparison of two Integer operands
returns a newly allocated Boolean cell, whose address is neither that of the
shared TRUE nor that of the shared FALSE. -/
theorem evalInfixExpression_integer_compare_fresh (a b : Int) :
    evalInfixExpression sampleIni sampleFmt
        (sampleWith [.IntegerObject a 3, .IntegerObject b 3]) 6 "<" 7
      = .ok (8, sampleWith [.IntegerObject a 3, .IntegerObject b 3,
          .BooleanObject (decide (a < b)) 4])
    ∧ (8 : Addr) ≠ sampleIni.TRUE ∧ (8 : Addr) ≠ sampleIni.FALSE := by
  refine ⟨?_, by decide, by decide⟩
  rw [evalInfixExpression_integer sampleIni sampleFmt
    (sampleWith [.IntegerObject a 3, .IntegerObject b 3]) 6 7 a b 3 3 rfl rfl "<"]
  simp [evalIntegerInfixExpression, sampleWith, sampleState, sampleIni, State.deref, State.alloc]

/-! ## Unary operators -/

theorem Initializer.Singletons.true_ne_false {ini : Initializer} {s : State}
    (h : ini.Singletons s) : ini.TRUE ≠ ini.FALSE := by
  obtain ⟨⟨c, h1⟩, ⟨d, h2⟩, _⟩ := h
  intro he
  rw [he, h2] at h1
  simp at h1

theorem Initializer.Singletons.true_ne_null {ini : Initializer} {s : State}
    (h : ini.Singletons s) : ini.TRUE ≠ ini.NULL := by
  obtain ⟨⟨c, h1⟩, _, h3⟩ := h
  intro he
  rw [he, h3] at h1
  simp at h1

/-- C7: `evalPrefixExpression` with "!" returns the shared TRUE when the operand
is the shared FALSE or the shared NULL, and the shared FALSE for every other
operand: the shared TRUE, and any Integer (0 included), String (empty included),
Error, Class or Object cell.  The store is unchanged and the result is never an
Error. -/
theorem evalPrefixExpression_bang (ini : Initializer) (fmtType : ObjectType → String)
    (s : State) (v : Addr) (hs : ini.Singletons s) :
    (v = ini.FALSE ∨ v = ini.NULL →
        evalPrefixExpression ini fmtType s "!" v = .ok (ini.TRUE, s))
    ∧ (v ≠ ini.FALSE → v ≠ ini.NULL →
        evalPrefixExpression ini fmtType s "!" v = .ok (ini.FALSE, s))
    ∧ evalPrefixExpression ini fmtType s "!" ini.TRUE = .ok (ini.FALSE, s)
    ∧ (∀ o, s.deref v = some o → o.Type ≠ .BOOLEAN_OBJ → o.Type ≠ .NULL_OBJ →
        evalPrefixExpression ini fmtType s "!" v = .ok (ini.FALSE, s))
    ∧ (∃ r, evalPrefixExpression ini fmtType s "!" v = .ok (r, s) ∧ isError s r = false) := by
  have hne : ∀ w, w ≠ ini.FALSE → w ≠ ini.NULL →
      evalPrefixExpression ini fmtType s "!" w = .ok (ini.FALSE, s) := by
    intro w h1 h2
    simp [evalPrefixExpression, evalBangPrefixExpression, h1, h2]
  have heq : v = ini.FALSE ∨ v = ini.NULL →
      evalPrefixExpression ini fmtType s "!" v = .ok (ini.TRUE, s) := by
    intro h
    rcases h with h | h
    · simp [evalPrefixExpression, evalBangPrefixExpression, h]
    · simp [evalPrefixExpression, evalBangPrefixExpression, h]
  have hT : isError s ini.TRUE = false := by
    obtain ⟨⟨c, h1⟩, _, _⟩ := hs
    simp [isError, h1, Object.Type]
  have hF : isError s ini.FALSE = false := by
    obtain ⟨_, ⟨c, h2⟩, _⟩ := hs
    simp [isError, h2, Object.Type]
  refine ⟨heq, hne v, hne _ hs.true_ne_false hs.true_ne_null, ?_, ?_⟩
  · intro o ho hb hn
    apply hne v
    · intro he
      obtain ⟨_, ⟨c, h2⟩, _⟩ := hs
      rw [he, h2] at ho
      cases ho
      exact hb rfl
    · intro he
      obtain ⟨_, _, h3⟩ := hs
      rw [he, h3] at ho
      cases ho
      exact hn rfl
  · by_cases h : v = ini.FALSE ∨ v = ini.NULL
    · exact ⟨ini.TRUE, heq h, hT⟩
    · simp only [not_or] at h
      exact ⟨ini.FALSE, hne v h.1 h.2, hF⟩

theorem evalPrefixExpression_bang_witness :
    evalPrefixExpression sampleIni sampleFmt (sampleWith [.IntegerObject 0 3]) "!" 6
      = .ok (1, sampleWith [.IntegerObject 0 3]) :=
  (evalPrefixExpression_bang sampleIni sampleFmt (sampleWith [.IntegerObject 0 3]) 6
    ⟨⟨4, rfl⟩, ⟨4, rfl⟩, rfl⟩).2.1 (by decide) (by decide)

/-- C8: for an operator other than "!" and an operand cell of any kind,
`evalPrefixExpression` returns a new Integer tagged with the Integer class and
holding the negation in 64-bit two's complement when the operator is "-" and the
operand is an Integer, and in every other case a new Error whose message is
"unknown operator: " followed by the operator and the operand's kind. -/
theorem evalPrefixExpression_minus_or_unknown (ini : Initializer)
    (fmtType : ObjectType → String) (s : State) (op : String) (v : Addr) (o : Object)
    (hop : op ≠ "!") (hv : s.deref v = some o) :
    (∀ n c, op = "-" → o = .IntegerObject n c →
        evalPrefixExpression ini fmtType s op v
          = .ok (s.heap.length,
              { s with heap := s.heap ++ [.IntegerObject (wrap64 (-n)) ini.IntegerClass] }))
    ∧ (¬ (op = "-" ∧ o.Type = .INTEGER_OBJ) →
        evalPrefixExpression ini fmtType s op v
          = .ok (s.heap.length,
              { s with heap := s.heap ++ [.Error ("unknown operator: " ++ op ++ fmtType o.Type)] })) := by
  constructor
  · intro n c h1 h2
    subst h1 h2
    simp [evalPrefixExpression, evalMinusPrefixExpression, deref_typeOf hv, hv, Object.Type,
      State.alloc]
  · intro h
    by_cases hm : op = "-"
    · subst hm
      have ht : o.Type ≠ .INTEGER_OBJ := fun he => h ⟨rfl, he⟩
      simp [evalPrefixExpression, evalMinusPrefixExpression, deref_typeOf hv, ht, newError,
        State.alloc]
    · simp [evalPrefixExpression, hop, hm, deref_typeOf hv, newError, State.alloc]

theorem evalPrefixExpression_minus_or_unknown_witness :
    evalPrefixExpression sampleIni sampleFmt sampleState "-" 0
      = .ok (6, sampleWith [.Error "unknown operator: -BOOLEAN"]) :=
  (evalPrefixExpression_minus_or_unknown sampleIni sampleFmt sampleState "-" 0
    (.BooleanObject true 4) (by decide) rfl).2 (by decide)

end Evaluator

/-! ## Conditional -/

namespace Evaluator

theorem isError_eq_false_of_type {s : State} {a : Addr} {o : Object}
    (h : s.deref a = some o) (ht : o.Type ≠ .ERROR_OBJ) : isError s a = false := by
  simp [isError, h, ht]

theorem evalIfExpression_integer (ini : Initializer) {Node : Type}
    (Eval : Node → Scope → State → Result Addr) (exp : IfExpression Node) (scope : Scope)
    (s s1 : State) (c : Addr) (n : Int) (k : Addr)
    (hc : Eval exp.Condition scope s = .ok (c, s1))
    (hn : s1.deref c = some (.IntegerObject n k)) :
    evalIfExpression ini Eval exp scope s = Eval exp.Consequence scope s1 := by
  have he : isError s1 c = false := isError_eq_false_of_type hn (by simp [Object.Type])
  simp [evalIfExpression, hc, he, deref_typeOf hn, Object.Type]

theorem evalIfExpression_boolean (ini : Initializer) {Node : Type}
    (Eval : Node → Scope → State → Result Addr) (exp : IfExpression Node) (scope : Scope)
    (s s1 : State) (c : Addr) (v : Bool) (k : Addr)
    (hc : Eval exp.Condition scope s = .ok (c, s1))
    (hb : s1.deref c = some (.BooleanObject v k)) :
    evalIfExpression ini Eval exp scope s
      = if v then Eval exp.Consequence scope s1
        else match exp.Alternative with
          | some alternative => Eval alternative scope s1
          | none => .ok (ini.NULL, s1) := by
  have he : isError s1 c = false := isError_eq_false_of_type hb (by simp [Object.Type])
  cases v <;> simp [evalIfExpression, hc, he, deref_typeOf hb, hb, Object.Type]

theorem evalIfExpression_other (ini : Initializer) {Node : Type}
    (Eval : Node → Scope → State → Result Addr) (exp : IfExpression Node) (scope : Scope)
    (s s1 : State) (c : Addr) (o : Object)
    (hc : Eval exp.Condition scope s = .ok (c, s1))
    (ho : s1.deref c = some o)
    (h1 : o.Type ≠ .ERROR_OBJ) (h2 : o.Type ≠ .INTEGER_OBJ) (h3 : o.Type ≠ .BOOLEAN_OBJ) :
    evalIfExpression ini Eval exp scope s = .error .interfaceConversion := by
  have he : isError s1 c = false := isError_eq_false_of_type ho h1
  cases o <;> simp_all [evalIfExpression, deref_typeOf ho, Object.Type]

/-- C9: when the condition evaluates to an Integer (0 included) or to the shared
TRUE, `evalIfExpression` returns what evaluating the consequence returns; when it
evaluates to the shared FALSE, it returns what evaluating the alternative returns
if there is one, and the shared NULL if there is none. -/
theorem evalIfExpression_branch (ini : Initializer) {Node : Type}
    (Eval : Node → Scope → State → Result Addr) (exp : IfExpression Node) (scope : Scope)
    (s s1 : State) (c : Addr)
    (hc : Eval exp.Condition scope s = .ok (c, s1)) (hs : ini.Singletons s1) :
    ((∃ n k, s1.deref c = some (.IntegerObject n k)) ∨ c = ini.TRUE →
        evalIfExpression ini Eval exp scope s = Eval exp.Consequence scope s1)
    ∧ (c = ini.FALSE → ∀ alternative, exp.Alternative = some alternative →
        evalIfExpression ini Eval exp scope s = Eval alternative scope s1)
    ∧ (c = ini.FALSE → exp.Alternative = none →
        evalIfExpression ini Eval exp scope s = .ok (ini.NULL, s1)) := by
  obtain ⟨⟨kt, hT⟩, ⟨kf, hF⟩, _⟩ := hs
  refine ⟨?_, ?_, ?_⟩
  · rintro (⟨n, k, hn⟩ | h)
    · exact evalIfExpression_integer ini Eval exp scope s s1 c n k hc hn
    · subst h
      rw [evalIfExpression_boolean ini Eval exp scope s s1 _ true kt hc hT]
      simp
  · intro h alternative ha
    subst h
    rw [evalIfExpression_boolean ini Eval exp scope s s1 _ false kf hc hF, ha]
    simp
  · intro h ha
    subst h
    rw [evalIfExpression_boolean ini Eval exp scope s s1 _ false kf hc hF, ha]
    simp

theorem evalIfExpression_branch_witness :
    evalIfExpression sampleIni evalStored
        { Condition := 6, Consequence := 7, Alternative := some 8 } sampleScope
        (sampleWith [.IntegerObject 0 3, .IntegerObject 1 3, .IntegerObject 2 3])
      = .ok (7, sampleWith [.IntegerObject 0 3, .IntegerObject 1 3, .IntegerObject 2 3]) :=
  (evalIfExpression_branch sampleIni evalStored
    { Condition := 6, Consequence := 7, Alternative := some 8 } sampleScope
    (sampleWith [.IntegerObject 0 3, .IntegerObject 1 3, .IntegerObject 2 3])
    (sampleWith [.IntegerObject 0 3, .IntegerObject 1 3, .IntegerObject 2 3]) 6
    rfl ⟨⟨4, rfl⟩, ⟨4, rfl⟩, rfl⟩).1 (Or.inl ⟨0, 3, rfl⟩)

/-- C10 (the code at the failing input): an if-expression whose condition is an
if-expression with a false condition and no alternative evaluates its condition
to the shared NULL, and then asserts it to be a Boolean cell: the call ends in
the runtime panic "interface conversion" and neither the alternative nor NULL is
returned. -/
theorem evalIfExpression_null_condition_panics :
    sampleEval sampleIni nullConditionIf.Condition sampleScope sampleState
      = .ok (sampleIni.NULL, sampleState)
    ∧ evalIfExpression sampleIni (sampleEval sampleIni) nullConditionIf sampleScope sampleState
      = .error .interfaceConversion := by
  have hc : sampleEval sampleIni nullConditionIf.Condition sampleScope sampleState
      = .ok (sampleIni.NULL, sampleState) := rfl
  exact ⟨hc, evalIfExpression_other sampleIni (sampleEval sampleIni) nullConditionIf sampleScope
    sampleState sampleState sampleIni.NULL .Null hc rfl (by decide) (by decide) (by decide)⟩

end Evaluator

/-! ## Error short-circuit of the conditional -/

namespace Evaluator

/-- C11: when evaluating the condition yields an Error value, `evalIfExpression`
returns that very value, with the store as the condition left it, whatever the
consequence and the alternative are: neither branch is evaluated. -/
theorem evalIfExpression_error_condition (ini : Initializer) {Node : Type}
    (Eval : Node → Scope → State → Result Addr) (exp : IfExpression Node) (scope : Scope)
    (s s1 : State) (c : Addr) (message : String)
    (hc : Eval exp.Condition scope s = .ok (c, s1))
    (he : s1.deref c = some (.Error message)) :
    evalIfExpression ini Eval exp scope s = .ok (c, s1)
    ∧ ∀ (consequence : Node) (alternative : Option Node),
        evalIfExpression ini Eval
          { Condition := exp.Condition, Consequence := consequence, Alternative := alternative }
          scope s = .ok (c, s1) := by
  have hE : isError s1 c = true := by simp [isError, he, Object.Type]
  constructor
  · simp [evalIfExpression, hc, hE]
  · intro consequence alternative
    simp [evalIfExpression, hc, hE]

theorem evalIfExpression_error_condition_witness :
    evalIfExpression sampleIni evalStored
        { Condition := 6, Consequence := 0, Alternative := some 1 } sampleScope
        (sampleWith [.Error "unknown operator: -BOOLEAN"])
      = .ok (6, sampleWith [.Error "unknown operator: -BOOLEAN"]) :=
  (evalIfExpression_error_condition sampleIni evalStored
    { Condition := 6, Consequence := 0, Alternative := some 1 } sampleScope
    (sampleWith [.Error "unknown operator: -BOOLEAN"])
    (sampleWith [.Error "unknown operator: -BOOLEAN"]) 6 "unknown operator: -BOOLEAN"
    rfl rfl).1

end Evaluator

/-! ## Identifiers, constants and instance variables -/

namespace Evaluator

theorem deref_alloc_of_deref {s : State} {a : Addr} {o : Object} (h : s.deref a = some o)
    (o1 : Object) : (s.alloc o1).2.deref a = some o := by
  simp only [State.deref, State.alloc] at *
  have hlt : a < s.heap.length := by
    by_contra hn
    rw [List.getElem?_eq_none (Nat.le_of_not_lt hn)] at h
    cases h
  rw [List.getElem?_append_left hlt]
  exact h

theorem deref_alloc_self (s : State) (o : Object) :
    (s.alloc o).2.deref (s.alloc o).1 = some o := by
  simp [State.deref, State.alloc]

/-- C12: when the environment of the scope binds the name to a value, that value
is what `evalIdentifier` returns, with the store unchanged, for every receiver
and for every method lookup and method invocation: whether or not the receiver
has a method of that name, none is looked up or invoked. -/
theorem evalIdentifier_bound (om : Collaborators) (node : Identifier) (scope : Scope)
    (s : State) (v : Addr) (hv : envGet s scope.Env node.Value = .ok (some v)) :
    evalIdentifier om node scope s = .ok (v, s)
    ∧ ∀ (om1 : Collaborators) (receiver : Addr),
        evalIdentifier om1 node { Env := scope.Env, Self := receiver } s = .ok (v, s) := by
  constructor
  · simp [evalIdentifier, hv]
  · intro om1 receiver
    simp [evalIdentifier, hv]

theorem evalIdentifier_bound_witness :
    evalIdentifier sampleOm { Value := "bar" } objectScope nameState = .ok (9, nameState) :=
  (evalIdentifier_bound sampleOm { Value := "bar" } objectScope nameState 9 rfl).1

end Evaluator

namespace Evaluator

/-- C13 (as amended): for a name the environment does not bind, with `err` the
Error value whose message is "undefined local variable or method `<name>' for
<receiver inspection string>": on a Class receiver whose class-method lookup
finds a method, and on an Object receiver whose class's instance-method lookup
finds one, `evalIdentifier` returns the unwrapped result of invoking that method
with an empty argument list (whatever that result is, an Error included); it
returns `err` whenever the lookup finds no method or the receiver is neither a
Class nor an Object. -/
theorem evalIdentifier_unbound (om : Collaborators) (node : Identifier) (scope : Scope)
    (s s1 : State) (str : String) (err : Addr)
    (hv : envGet s scope.Env node.Value = .ok none)
    (hi : om.Inspect s scope.Self = .ok str)
    (h1 : newError s ("undefined local variable or method `" ++ node.Value ++ "' for " ++ str)
      = .ok (err, s1)) :
    s1.deref err
        = some (.Error ("undefined local variable or method `" ++ node.Value ++ "' for " ++ str))
    ∧ (∀ n ms cms sup m, s.deref scope.Self = some (.RClass n ms cms sup) →
        om.LookupClassMethod s1 scope.Self node.Value = some m →
        evalIdentifier om node scope s
          = match om.evalClassMethod scope.Self m [] s1 with
            | .error p => .error p
            | .ok (evaluated, s2) => .ok (unwrapReturnValue s2 evaluated, s2))
    ∧ (∀ cls iv m, s.deref scope.Self = some (.RObject cls iv) →
        om.LookupInstanceMethod s1 cls node.Value = some m →
        evalIdentifier om node scope s
          = match om.evalInstanceMethod scope.Self m [] s1 with
            | .error p => .error p
            | .ok (evaluated, s2) => .ok (unwrapReturnValue s2 evaluated, s2))
    ∧ (∀ n ms cms sup, s.deref scope.Self = some (.RClass n ms cms sup) →
        om.LookupClassMethod s1 scope.Self node.Value = none →
        evalIdentifier om node scope s = .ok (err, s1))
    ∧ (∀ cls iv, s.deref scope.Self = some (.RObject cls iv) →
        om.LookupInstanceMethod s1 cls node.Value = none →
        evalIdentifier om node scope s = .ok (err, s1))
    ∧ (∀ o, s.deref scope.Self = some o → o.Type ≠ .CLASS_OBJ → o.Type ≠ .BASE_OBJECT_OBJ →
        evalIdentifier om node scope s = .ok (err, s1)) := by
  have h2 := h1
  simp only [newError, Except.ok.injEq, State.alloc, Prod.mk.injEq] at h2
  obtain ⟨he, hs⟩ := h2
  have hs1 : ∀ o, s.deref scope.Self = some o → s1.deref scope.Self = some o := by
    intro o ho
    rw [← hs]
    exact deref_alloc_of_deref ho _
  refine ⟨?_, ?_, ?_, ?_, ?_, ?_⟩
  · rw [← hs, ← he]
    exact deref_alloc_self s _
  · intro n ms cms sup m hr hl
    simp only [evalIdentifier, hv, hi, h1, hs1 _ hr, hl]
  · intro cls iv m hr hl
    simp only [evalIdentifier, hv, hi, h1, hs1 _ hr, hl]
  · intro n ms cms sup hr hl
    simp only [evalIdentifier, hv, hi, h1, hs1 _ hr, hl]
  · intro cls iv hr hl
    simp only [evalIdentifier, hv, hi, h1, hs1 _ hr, hl]
  · intro o hr hc hb
    have hr1 := hs1 o hr
    cases o <;> simp only [evalIdentifier, hv, hi, h1, hr1] <;> simp [Object.Type] at hc hb

theorem evalIdentifier_unbound_witness :
    evalIdentifier sampleOm { Value := "baz" } classScope nameState
      = .ok (9, { nameState with heap := nameState.heap ++
          [.Error "undefined local variable or method `baz' for Foo"] }) :=
  (evalIdentifier_unbound sampleOm { Value := "baz" } classScope nameState
    { nameState with heap := nameState.heap ++
        [.Error "undefined local variable or method `baz' for Foo"] }
    "Foo" 12 rfl rfl rfl).2.1 "Foo" 6 7 none 8 rfl rfl

/-- C13 (counterexample): on a Class receiver whose class-method lookup finds the
method `broken`, `evalIdentifier` returns an Error value all the same, the one
the invocation of the method produced. -/
theorem evalIdentifier_found_method_returns_error :
    nameState.deref classScope.Self = some (.RClass "Foo" 6 7 none)
    ∧ envGet nameState classScope.Env "broken" = .ok none
    ∧ sampleOm.LookupClassMethod
        { nameState with heap := nameState.heap ++
            [.Error "undefined local variable or method `broken' for Foo"] }
        classScope.Self "broken" = some 11
    ∧ ∃ r s2, evalIdentifier sampleOm { Value := "broken" } classScope nameState = .ok (r, s2)
        ∧ s2.deref r = some (.Error "unknown operator: -BOOLEAN")
        ∧ isError s2 r = true :=
  ⟨rfl, rfl, rfl, _, _, rfl, rfl, rfl⟩

/-- C14: `evalConstant` returns the binding of the name in the environment of
the scope when there is one, and otherwise a new Error with message "constant
<name> not found in: <receiver inspection string>"; the method lookups and
invocations play no part, so a receiver with a method of that name but no
binding still yields the error. -/
theorem evalConstant_spec (om : Collaborators) (node : Constant) (scope : Scope) (s : State) :
    (∀ v, envGet s scope.Env node.Value = .ok (some v) →
        evalConstant om node scope s = .ok (v, s))
    ∧ (∀ str, envGet s scope.Env node.Value = .ok none → om.Inspect s scope.Self = .ok str →
        evalConstant om node scope s
          = .ok (s.heap.length,
              { s with heap := s.heap ++
                  [.Error ("constant " ++ node.Value ++ " not found in: " ++ str)] }))
    ∧ (∀ om1 : Collaborators, om1.Inspect = om.Inspect →
        evalConstant om1 node scope s = evalConstant om node scope s)
    ∧ (∀ str m, om.LookupClassMethod s scope.Self node.Value = some m
          ∨ (∃ cls iv, s.deref scope.Self = some (.RObject cls iv)
              ∧ om.LookupInstanceMethod s cls node.Value = some m) →
        envGet s scope.Env node.Value = .ok none → om.Inspect s scope.Self = .ok str →
        evalConstant om node scope s
          = .ok (s.heap.length,
              { s with heap := s.heap ++
                  [.Error ("constant " ++ node.Value ++ " not found in: " ++ str)] })) := by
  have h2 : ∀ str, envGet s scope.Env node.Value = .ok none → om.Inspect s scope.Self = .ok str →
      evalConstant om node scope s
        = .ok (s.heap.length,
            { s with heap := s.heap ++
                [.Error ("constant " ++ node.Value ++ " not found in: " ++ str)] }) := by
    intro str hv hi
    simp [evalConstant, hv, hi, newError, State.alloc]
  refine ⟨?_, h2, ?_, ?_⟩
  · intro v hv
    simp [evalConstant, hv]
  · intro om1 h
    simp [evalConstant, h]
  · intro str m _ hv hi
    exact h2 str hv hi

theorem evalConstant_spec_witness :
    evalConstant sampleOm { Value := "baz" } classScope nameState
      = .ok (12, { nameState with heap := nameState.heap ++
          [.Error "constant baz not found in: Foo"] }) :=
  (evalConstant_spec sampleOm { Value := "baz" } classScope nameState).2.2.2 "Foo" 8
    (Or.inl rfl) rfl rfl

/-- C15: on a scope whose receiver is an Object, `evalInstanceVariable` returns a
new Error with message "instance variable <name> not found in: <instance
inspection string>" when the object's instance-variable mapping does not hold the
name, and once the mapping has been updated to hold a value under that name it
returns that value, the one stored last. -/
theorem evalInstanceVariable_spec (om : Collaborators) (node : InstanceVariable)
    (scope : Scope) (s : State) (cls : Addr) (iv : EnvAddr)
    (hr : s.deref scope.Self = some (.RObject cls iv)) :
    (∀ str, envGet s iv node.Value = .ok none → om.Inspect s scope.Self = .ok str →
        evalInstanceVariable om node scope s
          = .ok (s.heap.length,
              { s with heap := s.heap ++
                  [.Error ("instance variable " ++ node.Value ++ " not found in: " ++ str)] }))
    ∧ (∀ v, iv < s.envs.length →
        evalInstanceVariable om node scope (envSet s iv node.Value v)
          = .ok (v, envSet s iv node.Value v))
    ∧ (∀ v w, iv < s.envs.length →
        evalInstanceVariable om node scope (envSet (envSet s iv node.Value v) iv node.Value w)
          = .ok (w, envSet (envSet s iv node.Value v) iv node.Value w)) := by
  have hset : ∀ (t : State) (v : Addr), t.deref scope.Self = some (.RObject cls iv) →
      iv < t.envs.length →
      (envSet t iv node.Value v).deref scope.Self = some (.RObject cls iv)
      ∧ iv < (envSet t iv node.Value v).envs.length
      ∧ evalInstanceVariable om node scope (envSet t iv node.Value v)
          = .ok (v, envSet t iv node.Value v) := by
    intro t v ht hlt
    have hg : t.envs[iv]? = some (t.envs[iv]) := List.getElem?_eq_getElem hlt
    have hd : (envSet t iv node.Value v).deref scope.Self = some (.RObject cls iv) := by
      simpa [envSet, hg, State.deref] using ht
    refine ⟨hd, by simp [envSet, hg, hlt], ?_⟩
    have hget : envGet (envSet t iv node.Value v) iv node.Value = .ok (some v) := by
      simp [envGet, envSet, hg, hlt, List.lookup]
    simp [evalInstanceVariable, hd, hget]
  refine ⟨?_, ?_, ?_⟩
  · intro str hv hi
    simp [evalInstanceVariable, hr, hv, hi, newError, State.alloc]
  · intro v hlt
    exact (hset s v hr hlt).2.2
  · intro v w hlt
    obtain ⟨h1, h2, _⟩ := hset s v hr hlt
    exact (hset _ w h1 h2).2.2

theorem evalInstanceVariable_spec_witness :
    evalInstanceVariable sampleOm { Value := "x" } objectScope (envSet nameState 8 "x" 9)
      = .ok (9, envSet nameState 8 "x" 9) :=
  (evalInstanceVariable_spec sampleOm { Value := "x" } objectScope nameState 6 8 rfl).2.1 9
    (by decide)

end Evaluator

/-! ## String and Boolean operands -/

namespace Evaluator

theorem bytesLt_iff (x y : List Nat) : bytesLt x y = true ↔ List.Lex (· < ·) x y := by
  induction x generalizing y with
  | nil =>
    cases y with
    | nil =>
      constructor
      · intro h
        simp [bytesLt] at h
      · intro h
        cases h
    | cons b bs =>
      constructor
      · intro _
        exact List.Lex.nil
      · intro _
        simp [bytesLt]
  | cons a as ih =>
    cases y with
    | nil =>
      constructor
      · intro h
        simp [bytesLt] at h
      · intro h
        cases h
    | cons b bs =>
      by_cases hab : a < b
      · constructor
        · intro _
          exact List.Lex.rel hab
        · intro _
          simp [bytesLt, hab]
      · by_cases hba : b < a
        · constructor
          · intro h
            simp [bytesLt, hab, hba] at h
          · intro h
            cases h with
            | cons _ => exact absurd hba (Nat.lt_irrefl _)
            | rel h1 => exact absurd h1 hab
        · have hEq : a = b := by omega
          subst hEq
          constructor
          · intro h
            simp only [bytesLt, hab, if_false] at h
            exact List.Lex.cons ((ih bs).1 h)
          · intro h
            simp only [bytesLt, hab, if_false]
            cases h with
            | cons h3 => exact (ih bs).2 h3
            | rel h1 => exact absurd h1 hab

theorem evalInfixExpression_string (ini : Initializer) (fmtType : ObjectType → String)
    (s : State) (left right : Addr) (a b : String) (ca cb : Addr)
    (hl : s.deref left = some (.StringObject a ca))
    (hr : s.deref right = some (.StringObject b cb)) (op : String) :
    evalInfixExpression ini fmtType s left op right
      = evalStringInfixExpression ini fmtType s left op right := by
  simp [evalInfixExpression, deref_typeOf hl, deref_typeOf hr, Object.Type]

theorem evalInfixExpression_boolean (ini : Initializer) (fmtType : ObjectType → String)
    (s : State) (left right : Addr) (p q : Bool) (cp cq : Addr)
    (hl : s.deref left = some (.BooleanObject p cp))
    (hr : s.deref right = some (.BooleanObject q cq)) (op : String) :
    evalInfixExpression ini fmtType s left op right
      = evalBooleanInfixExpression ini fmtType s left op right := by
  simp [evalInfixExpression, deref_typeOf hl, deref_typeOf hr, Object.Type]

/-- C16: on two String operands holding s and t, "+" allocates and returns a
String tagged with the String class holding s followed by t; ">" and "<" return
the shared TRUE or FALSE according to the lexicographic order of the byte
sequences of s and t; "==" and "!=" return the shared TRUE or FALSE according to
equality and inequality of s and t. -/
theorem evalInfixExpression_string_ops (ini : Initializer) (fmtType : ObjectType → String)
    (s : State) (left right : Addr) (a b : String) (ca cb : Addr)
    (hl : s.deref left = some (.StringObject a ca))
    (hr : s.deref right = some (.StringObject b cb)) :
    (evalInfixExpression ini fmtType s left "+" right
        = .ok (s.heap.length,
            { s with heap := s.heap ++ [.StringObject (a ++ b) ini.StringClass] }))
    ∧ (List.Lex (· < ·) (stringBytes b) (stringBytes a) →
        evalInfixExpression ini fmtType s left ">" right = .ok (ini.TRUE, s))
    ∧ (¬ List.Lex (· < ·) (stringBytes b) (stringBytes a) →
        evalInfixExpression ini fmtType s left ">" right = .ok (ini.FALSE, s))
    ∧ (List.Lex (· < ·) (stringBytes a) (stringBytes b) →
        evalInfixExpression ini fmtType s left "<" right = .ok (ini.TRUE, s))
    ∧ (¬ List.Lex (· < ·) (stringBytes a) (stringBytes b) →
        evalInfixExpression ini fmtType s left "<" right = .ok (ini.FALSE, s))
    ∧ (a = b → evalInfixExpression ini fmtType s left "==" right = .ok (ini.TRUE, s))
    ∧ (a ≠ b → evalInfixExpression ini fmtType s left "==" right = .ok (ini.FALSE, s))
    ∧ (a ≠ b → evalInfixExpression ini fmtType s left "!=" right = .ok (ini.TRUE, s))
    ∧ (a = b → evalInfixExpression ini fmtType s left "!=" right = .ok (ini.FALSE, s)) := by
  refine ⟨?_, ?_, ?_, ?_, ?_, ?_, ?_, ?_, ?_⟩
  · rw [evalInfixExpression_string ini fmtType s left right a b ca cb hl hr]
    simp [evalStringInfixExpression, hl, hr, State.alloc]
  · intro h
    have hb : stringLt b a = true := (bytesLt_iff _ _).2 h
    rw [evalInfixExpression_string ini fmtType s left right a b ca cb hl hr]
    simp [evalStringInfixExpression, hl, hr, hb]
  · intro h
    have hb : stringLt b a = false := by
      cases hx : stringLt b a
      · rfl
      · exact absurd ((bytesLt_iff _ _).1 hx) h
    rw [evalInfixExpression_string ini fmtType s left right a b ca cb hl hr]
    simp [evalStringInfixExpression, hl, hr, hb]
  · intro h
    have hb : stringLt a b = true := (bytesLt_iff _ _).2 h
    rw [evalInfixExpression_string ini fmtType s left right a b ca cb hl hr]
    simp [evalStringInfixExpression, hl, hr, hb]
  · intro h
    have hb : stringLt a b = false := by
      cases hx : stringLt a b
      · rfl
      · exact absurd ((bytesLt_iff _ _).1 hx) h
    rw [evalInfixExpression_string ini fmtType s left right a b ca cb hl hr]
    simp [evalStringInfixExpression, hl, hr, hb]
  · intro h
    rw [evalInfixExpression_string ini fmtType s left right a b ca cb hl hr]
    simp [evalStringInfixExpression, hl, hr, h]
  · intro h
    rw [evalInfixExpression_string ini fmtType s left right a b ca cb hl hr]
    simp [evalStringInfixExpression, hl, hr, h]
  · intro h
    rw [evalInfixExpression_string ini fmtType s left right a b ca cb hl hr]
    simp [evalStringInfixExpression, hl, hr, h]
  · intro h
    rw [evalInfixExpression_string ini fmtType s left right a b ca cb hl hr]
    simp [evalStringInfixExpression, hl, hr, h]

theorem evalInfixExpression_string_ops_witness :
    evalInfixExpression sampleIni sampleFmt
        (sampleWith [.StringObject "ab" 5, .StringObject "b" 5]) 6 "<" 7
      = .ok (0, sampleWith [.StringObject "ab" 5, .StringObject "b" 5]) :=
  (evalInfixExpression_string_ops sampleIni sampleFmt
    (sampleWith [.StringObject "ab" 5, .StringObject "b" 5]) 6 7 "ab" "b" 5 5 rfl rfl).2.2.2.1
    ((bytesLt_iff _ _).1 (by decide))

/-- C17: on two Boolean operands, shared singletons or not, "==" returns the
shared TRUE when the payloads are equal and the shared FALSE otherwise, and "!="
returns the shared TRUE when the payloads differ and the shared FALSE otherwise;
the store is unchanged. -/
theorem evalInfixExpression_boolean_ops (ini : Initializer) (fmtType : ObjectType → String)
    (s : State) (left right : Addr) (p q : Bool) (cp cq : Addr)
    (hl : s.deref left = some (.BooleanObject p cp))
    (hr : s.deref right = some (.BooleanObject q cq)) :
    (p = q → evalInfixExpression ini fmtType s left "==" right = .ok (ini.TRUE, s))
    ∧ (p ≠ q → evalInfixExpression ini fmtType s left "==" right = .ok (ini.FALSE, s))
    ∧ (p ≠ q → evalInfixExpression ini fmtType s left "!=" right = .ok (ini.TRUE, s))
    ∧ (p = q → evalInfixExpression ini fmtType s left "!=" right = .ok (ini.FALSE, s)) := by
  refine ⟨?_, ?_, ?_, ?_⟩ <;> intro h <;>
    rw [evalInfixExpression_boolean ini fmtType s left right p q cp cq hl hr] <;>
    simp [evalBooleanInfixExpression, hl, hr, h]

theorem evalInfixExpression_boolean_ops_witness :
    evalInfixExpression sampleIni sampleFmt (sampleWith [.BooleanObject false 4]) 6 "==" 1
      = .ok (0, sampleWith [.BooleanObject false 4]) :=
  (evalInfixExpression_boolean_ops sampleIni sampleFmt (sampleWith [.BooleanObject false 4])
    6 1 false false 4 4 rfl rfl).1 rfl

end Evaluator

/-! ## Unknown operators on operands of one kind -/

namespace Evaluator

theorem isError_alloc (s : State) (o : Object) :
    isError { s with heap := s.heap ++ [o] } s.heap.length = decide (o.Type = .ERROR_OBJ) := by
  simp [isError, State.deref]

theorem Initializer.Singletons.isError_true {ini : Initializer} {s : State}
    (h : ini.Singletons s) : isError s ini.TRUE = false := by
  obtain ⟨⟨c, h1⟩, _, _⟩ := h
  simp [isError, h1, Object.Type]

theorem Initializer.Singletons.isError_false {ini : Initializer} {s : State}
    (h : ini.Singletons s) : isError s ini.FALSE = false := by
  obtain ⟨_, ⟨c, h2⟩, _⟩ := h
  simp [isError, h2, Object.Type]

theorem evalInteger_known (ini : Initializer) (fmtType : ObjectType → String)
    (s : State) (left right : Addr) (a b : Int) (ca cb : Addr) (op : String)
    (hl : s.deref left = some (.IntegerObject a ca))
    (hr : s.deref right = some (.IntegerObject b cb))
    (hop : op ∈ ["+", "-", "*", "/", ">", "<", "==", "!="]) (hz : ¬ (op = "/" ∧ b = 0)) :
    ∃ o, o.Type ≠ .ERROR_OBJ ∧ evalInfixExpression ini fmtType s left op right
      = .ok (s.heap.length, { s with heap := s.heap ++ [o] }) := by
  rw [evalInfixExpression_integer ini fmtType s left right a b ca cb hl hr]
  simp only [List.mem_cons, List.mem_singleton, List.not_mem_nil, or_false] at hop
  rcases hop with h | h | h | h | h | h | h | h <;> subst h
  · exact ⟨.IntegerObject (wrap64 (a + b)) ini.IntegerClass, by simp [Object.Type],
      by simp [evalIntegerInfixExpression, hl, hr, State.alloc]⟩
  · exact ⟨.IntegerObject (wrap64 (a - b)) ini.IntegerClass, by simp [Object.Type],
      by simp [evalIntegerInfixExpression, hl, hr, State.alloc]⟩
  · exact ⟨.IntegerObject (wrap64 (a * b)) ini.IntegerClass, by simp [Object.Type],
      by simp [evalIntegerInfixExpression, hl, hr, State.alloc]⟩
  · have hb : b ≠ 0 := fun hb => hz ⟨rfl, hb⟩
    exact ⟨.IntegerObject (wrap64 (Int.tdiv a b)) ini.IntegerClass, by simp [Object.Type],
      by simp [evalIntegerInfixExpression, hl, hr, State.alloc, hb]⟩
  · exact ⟨.BooleanObject (decide (a > b)) ini.BooleanClass, by simp [Object.Type],
      by simp [evalIntegerInfixExpression, hl, hr, State.alloc]⟩
  · exact ⟨.BooleanObject (decide (a < b)) ini.BooleanClass, by simp [Object.Type],
      by simp [evalIntegerInfixExpression, hl, hr, State.alloc]⟩
  · exact ⟨.BooleanObject (decide (a = b)) ini.BooleanClass, by simp [Object.Type],
      by simp [evalIntegerInfixExpression, hl, hr, State.alloc]⟩
  · exact ⟨.BooleanObject (decide (a ≠ b)) ini.BooleanClass, by simp [Object.Type],
      by simp [evalIntegerInfixExpression, hl, hr, State.alloc]⟩

theorem evalInteger_unknown (ini : Initializer) (fmtType : ObjectType → String)
    (s : State) (left right : Addr) (a b : Int) (ca cb : Addr) (op : String)
    (hl : s.deref left = some (.IntegerObject a ca))
    (hr : s.deref right = some (.IntegerObject b cb))
    (hop : op ∉ ["+", "-", "*", "/", ">", "<", "==", "!="]) :
    evalInfixExpression ini fmtType s left op right
      = .ok (s.heap.length, { s with heap := s.heap ++
          [.Error ("unknown operator: " ++ fmtType .INTEGER_OBJ ++ " " ++ op ++ " "
            ++ fmtType .INTEGER_OBJ)] }) := by
  rw [evalInfixExpression_integer ini fmtType s left right a b ca cb hl hr]
  simp only [List.mem_cons, List.mem_singleton, List.not_mem_nil, or_false, not_or] at hop
  obtain ⟨h1, h2, h3, h4, h5, h6, h7, h8⟩ := hop
  simp only [evalIntegerInfixExpression, hl, hr, if_neg h1, if_neg h2, if_neg h3, if_neg h4,
    if_neg h5, if_neg h6, if_neg h7, if_neg h8, newError, State.alloc, Object.Type]

theorem evalBoolean_known (ini : Initializer) (fmtType : ObjectType → String)
    (s : State) (left right : Addr) (p q : Bool) (cp cq : Addr) (op : String)
    (hl : s.deref left = some (.BooleanObject p cp))
    (hr : s.deref right = some (.BooleanObject q cq))
    (hop : op ∈ ["==", "!="]) :
    evalInfixExpression ini fmtType s left op right = .ok (ini.TRUE, s)
      ∨ evalInfixExpression ini fmtType s left op right = .ok (ini.FALSE, s) := by
  rw [evalInfixExpression_boolean ini fmtType s left right p q cp cq hl hr]
  simp only [List.mem_cons, List.mem_singleton, List.not_mem_nil, or_false] at hop
  rcases hop with h1 | h1 <;> subst h1 <;> cases p <;> cases q <;>
    simp [evalBooleanInfixExpression, hl, hr]

theorem evalBoolean_unknown (ini : Initializer) (fmtType : ObjectType → String)
    (s : State) (left right : Addr) (p q : Bool) (cp cq : Addr) (op : String)
    (hl : s.deref left = some (.BooleanObject p cp))
    (hr : s.deref right = some (.BooleanObject q cq))
    (hop : op ∉ ["==", "!="]) :
    evalInfixExpression ini fmtType s left op right
      = .ok (s.heap.length, { s with heap := s.heap ++
          [.Error ("unknown operator: " ++ fmtType .BOOLEAN_OBJ ++ " " ++ op ++ " "
            ++ fmtType .BOOLEAN_OBJ)] }) := by
  rw [evalInfixExpression_boolean ini fmtType s left right p q cp cq hl hr]
  simp only [List.mem_cons, List.mem_singleton, List.not_mem_nil, or_false, not_or] at hop
  obtain ⟨h1, h2⟩ := hop
  simp only [evalBooleanInfixExpression, hl, hr, if_neg h1, if_neg h2, newError, State.alloc,
    Object.Type]

theorem evalString_known (ini : Initializer) (fmtType : ObjectType → String)
    (s : State) (left right : Addr) (a b : String) (ca cb : Addr) (op : String)
    (hl : s.deref left = some (.StringObject a ca))
    (hr : s.deref right = some (.StringObject b cb))
    (hop : op ∈ ["+", ">", "<", "==", "!="]) :
    evalInfixExpression ini fmtType s left op right
        = .ok (s.heap.length,
            { s with heap := s.heap ++ [.StringObject (a ++ b) ini.StringClass] })
      ∨ evalInfixExpression ini fmtType s left op right = .ok (ini.TRUE, s)
      ∨ evalInfixExpression ini fmtType s left op right = .ok (ini.FALSE, s) := by
  rw [evalInfixExpression_string ini fmtType s left right a b ca cb hl hr]
  simp only [List.mem_cons, List.mem_singleton, List.not_mem_nil, or_false] at hop
  rcases hop with h1 | h1 | h1 | h1 | h1 <;> subst h1
  · exact Or.inl (by simp [evalStringInfixExpression, hl, hr, State.alloc])
  · cases hx : stringLt b a
    · exact Or.inr (Or.inr (by simp [evalStringInfixExpression, hl, hr, hx]))
    · exact Or.inr (Or.inl (by simp [evalStringInfixExpression, hl, hr, hx]))
  · cases hx : stringLt a b
    · exact Or.inr (Or.inr (by simp [evalStringInfixExpression, hl, hr, hx]))
    · exact Or.inr (Or.inl (by simp [evalStringInfixExpression, hl, hr, hx]))
  · by_cases hx : a = b
    · exact Or.inr (Or.inl (by simp [evalStringInfixExpression, hl, hr, hx]))
    · exact Or.inr (Or.inr (by simp [evalStringInfixExpression, hl, hr, hx]))
  · by_cases hx : a = b
    · exact Or.inr (Or.inr (by simp [evalStringInfixExpression, hl, hr, hx]))
    · exact Or.inr (Or.inl (by simp [evalStringInfixExpression, hl, hr, hx]))

theorem evalString_unknown (ini : Initializer) (fmtType : ObjectType → String)
    (s : State) (left right : Addr) (a b : String) (ca cb : Addr) (op : String)
    (hl : s.deref left = some (.StringObject a ca))
    (hr : s.deref right = some (.StringObject b cb))
    (hop : op ∉ ["+", ">", "<", "==", "!="]) :
    evalInfixExpression ini fmtType s left op right
      = .ok (s.heap.length, { s with heap := s.heap ++
          [.Error ("unknown operator: " ++ fmtType .STRING_OBJ ++ " " ++ op ++ " "
            ++ fmtType .STRING_OBJ)] }) := by
  rw [evalInfixExpression_string ini fmtType s left right a b ca cb hl hr]
  simp only [List.mem_cons, List.mem_singleton, List.not_mem_nil, or_false, not_or] at hop
  obtain ⟨h1, h2, h3, h4, h5⟩ := hop
  simp only [evalStringInfixExpression, hl, hr, if_neg h1, if_neg h2, if_neg h3, if_neg h4,
    if_neg h5, newError, State.alloc, Object.Type]

end Evaluator

namespace Evaluator

/-- C18: on two operands of one kind among Integer, Boolean and String, Integer
division by zero set aside, `evalInfixExpression` returns a value, and that value
is an Error if and only if the operator is outside the operator set of the kind
(Integer: + - * / > < == !=; Boolean: == !=; String: + > < == !=); the Error then
has the message "unknown operator: " followed by the kind, a space, the operator,
a space and the kind. -/
theorem evalInfixExpression_unknown_operator (ini : Initializer)
    (fmtType : ObjectType → String) (s : State) (left right : Addr) (op : String)
    (hs : ini.Singletons s) :
    (∀ a b ca cb, s.deref left = some (.IntegerObject a ca) →
        s.deref right = some (.IntegerObject b cb) → ¬ (op = "/" ∧ b = 0) →
        ∃ r s1, evalInfixExpression ini fmtType s left op right = .ok (r, s1)
          ∧ (isError s1 r = true ↔ op ∉ ["+", "-", "*", "/", ">", "<", "==", "!="])
          ∧ (op ∉ ["+", "-", "*", "/", ">", "<", "==", "!="] →
              s1.deref r = some (.Error ("unknown operator: " ++ fmtType .INTEGER_OBJ ++ " "
                ++ op ++ " " ++ fmtType .INTEGER_OBJ))))
    ∧ (∀ p q cp cq, s.deref left = some (.BooleanObject p cp) →
        s.deref right = some (.BooleanObject q cq) →
        ∃ r s1, evalInfixExpression ini fmtType s left op right = .ok (r, s1)
          ∧ (isError s1 r = true ↔ op ∉ ["==", "!="])
          ∧ (op ∉ ["==", "!="] →
              s1.deref r = some (.Error ("unknown operator: " ++ fmtType .BOOLEAN_OBJ ++ " "
                ++ op ++ " " ++ fmtType .BOOLEAN_OBJ))))
    ∧ (∀ a b ca cb, s.deref left = some (.StringObject a ca) →
        s.deref right = some (.StringObject b cb) →
        ∃ r s1, evalInfixExpression ini fmtType s left op right = .ok (r, s1)
          ∧ (isError s1 r = true ↔ op ∉ ["+", ">", "<", "==", "!="])
          ∧ (op ∉ ["+", ">", "<", "==", "!="] →
              s1.deref r = some (.Error ("unknown operator: " ++ fmtType .STRING_OBJ ++ " "
                ++ op ++ " " ++ fmtType .STRING_OBJ)))) := by
  refine ⟨?_, ?_, ?_⟩
  · intro a b ca cb hl hr hz
    by_cases hop : op ∈ ["+", "-", "*", "/", ">", "<", "==", "!="]
    · obtain ⟨o, ho, he⟩ := evalInteger_known ini fmtType s left right a b ca cb op hl hr hop hz
      refine ⟨_, _, he, ?_, fun h => absurd hop h⟩
      rw [isError_alloc]
      simp [ho, hop]
    · refine ⟨_, _, evalInteger_unknown ini fmtType s left right a b ca cb op hl hr hop, ?_,
        fun _ => deref_alloc_self s _⟩
      rw [isError_alloc]
      simp [hop, Object.Type]
  · intro p q cp cq hl hr
    by_cases hop : op ∈ ["==", "!="]
    · rcases evalBoolean_known ini fmtType s left right p q cp cq op hl hr hop with he | he
      · refine ⟨_, _, he, ?_, fun h => absurd hop h⟩
        simp [hs.isError_true, hop]
      · refine ⟨_, _, he, ?_, fun h => absurd hop h⟩
        simp [hs.isError_false, hop]
    · refine ⟨_, _, evalBoolean_unknown ini fmtType s left right p q cp cq op hl hr hop, ?_,
        fun _ => deref_alloc_self s _⟩
      rw [isError_alloc]
      simp [hop, Object.Type]
  · intro a b ca cb hl hr
    by_cases hop : op ∈ ["+", ">", "<", "==", "!="]
    · rcases evalString_known ini fmtType s left right a b ca cb op hl hr hop with he | he | he
      · refine ⟨_, _, he, ?_, fun h => absurd hop h⟩
        rw [isError_alloc]
        simp [hop, Object.Type]
      · refine ⟨_, _, he, ?_, fun h => absurd hop h⟩
        simp [hs.isError_true, hop]
      · refine ⟨_, _, he, ?_, fun h => absurd hop h⟩
        simp [hs.isError_false, hop]
    · refine ⟨_, _, evalString_unknown ini fmtType s left right a b ca cb op hl hr hop, ?_,
        fun _ => deref_alloc_self s _⟩
      rw [isError_alloc]
      simp [hop, Object.Type]

theorem evalInfixExpression_unknown_operator_witness :
    ∃ r s1, evalInfixExpression sampleIni sampleFmt sampleState 0 "+" 1 = .ok (r, s1)
      ∧ (isError s1 r = true ↔ "+" ∉ ["==", "!="])
      ∧ ("+" ∉ ["==", "!="] →
          s1.deref r = some (.Error ("unknown operator: " ++ sampleFmt .BOOLEAN_OBJ ++ " "
            ++ "+" ++ " " ++ sampleFmt .BOOLEAN_OBJ))) :=
  (evalInfixExpression_unknown_operator sampleIni sampleFmt sampleState 0 1 "+"
    ⟨⟨4, rfl⟩, ⟨4, rfl⟩, rfl⟩).2.1 true false 4 4 rfl rfl

/-! ## Negation of comparison results -/

/-- C19 (the code at the failing input): whatever the Integers a and b are, "!"
applied to the result of their comparison returns the shared FALSE, also when the
comparison is false, as for 2 < 1: the result of the comparison is a new Boolean
cell, which is not the shared FALSE that "!" tests for by identity. -/
theorem evalPrefixExpression_bang_of_compare (a b : Int) :
    evalInfixExpression sampleIni sampleFmt
        (sampleWith [.IntegerObject a 3, .IntegerObject b 3]) 6 "<" 7
      = .ok (8, sampleWith [.IntegerObject a 3, .IntegerObject b 3,
          .BooleanObject (decide (a < b)) 4])
    ∧ evalPrefixExpression sampleIni sampleFmt
        (sampleWith [.IntegerObject a 3, .IntegerObject b 3,
          .BooleanObject (decide (a < b)) 4]) "!" 8
      = .ok (sampleIni.FALSE,
          sampleWith [.IntegerObject a 3, .IntegerObject b 3,
            .BooleanObject (decide (a < b)) 4])
    ∧ evalPrefixExpression sampleIni sampleFmt
        (sampleWith [.IntegerObject 2 3, .IntegerObject 1 3, .BooleanObject false 4]) "!" 8
      = .ok (sampleIni.FALSE,
          sampleWith [.IntegerObject 2 3, .IntegerObject 1 3, .BooleanObject false 4]) := by
  refine ⟨?_, rfl, rfl⟩
  rw [evalInfixExpression_integer sampleIni sampleFmt
    (sampleWith [.IntegerObject a 3, .IntegerObject b 3]) 6 7 a b 3 3 rfl rfl "<"]
  simp [evalIntegerInfixExpression, sampleWith, sampleState, sampleIni, State.deref, State.alloc]

/-! ## Branching on the payload of a Boolean -/

theorem evalInfixExpression_integer_compare_aux (ini : Initializer)
    (fmtType : ObjectType → String) (s : State) (left right : Addr) (a b : Int) (ca cb : Addr)
    (hl : s.deref left = some (.IntegerObject a ca))
    (hr : s.deref right = some (.IntegerObject b cb)) :
    evalInfixExpression ini fmtType s left "<" right
      = .ok (s.heap.length,
          { s with heap := s.heap ++ [.BooleanObject (decide (a < b)) ini.BooleanClass] }) := by
  rw [evalInfixExpression_integer ini fmtType s left right a b ca cb hl hr]
  simp [evalIntegerInfixExpression, hl, hr, State.alloc]

/-- C20: when the condition evaluates to a Boolean cell, the shared TRUE or FALSE
or any other one, such as the new cell a comparison of two Integers returns,
`evalIfExpression` selects the branch by the payload of the cell: payload true
gives what evaluating the consequence returns, payload false gives what
evaluating the alternative returns, or the shared NULL when there is no
alternative. -/
theorem evalIfExpression_boolean_payload (ini : Initializer) {Node : Type}
    (Eval : Node → Scope → State → Result Addr) (exp : IfExpression Node) (scope : Scope)
    (s s1 : State) (c : Addr) (v : Bool) (k : Addr)
    (hc : Eval exp.Condition scope s = .ok (c, s1))
    (hb : s1.deref c = some (.BooleanObject v k)) :
    (v = true → evalIfExpression ini Eval exp scope s = Eval exp.Consequence scope s1)
    ∧ (v = false → ∀ alternative, exp.Alternative = some alternative →
        evalIfExpression ini Eval exp scope s = Eval alternative scope s1)
    ∧ (v = false → exp.Alternative = none →
        evalIfExpression ini Eval exp scope s = .ok (ini.NULL, s1))
    ∧ (∀ (fmtType : ObjectType → String) (s0 : State) (left right : Addr) (a b : Int)
        (ca cb : Addr), s0.deref left = some (.IntegerObject a ca) →
        s0.deref right = some (.IntegerObject b cb) →
        Eval exp.Condition scope s = evalInfixExpression ini fmtType s0 left "<" right →
        evalIfExpression ini Eval exp scope s
          = if a < b then
              Eval exp.Consequence scope
                { s0 with heap := s0.heap ++ [.BooleanObject (decide (a < b)) ini.BooleanClass] }
            else match exp.Alternative with
              | some alternative =>
                Eval alternative scope
                  { s0 with heap := s0.heap ++ [.BooleanObject (decide (a < b)) ini.BooleanClass] }
              | none =>
                .ok (ini.NULL,
                  { s0 with heap := s0.heap ++ [.BooleanObject (decide (a < b)) ini.BooleanClass] })) := by
  have h := evalIfExpression_boolean ini Eval exp scope s s1 c v k hc hb
  refine ⟨?_, ?_, ?_, ?_⟩
  · intro hv
    rw [h, hv]
    simp
  · intro hv alternative ha
    rw [h, hv, ha]
    simp
  · intro hv ha
    rw [h, hv, ha]
    simp
  · intro fmtType s0 left right a b ca cb hl hr he
    rw [evalInfixExpression_integer_compare_aux ini fmtType s0 left right a b ca cb hl hr] at he
    rw [evalIfExpression_boolean ini Eval exp scope s _ _ (decide (a < b)) ini.BooleanClass he
      (deref_alloc_self s0 _)]
    by_cases hab : a < b <;> simp [hab]

theorem evalIfExpression_boolean_payload_witness :
    evalIfExpression sampleIni evalStored
        { Condition := 8, Consequence := 6, Alternative := some 7 } sampleScope
        (sampleWith [.IntegerObject 1 3, .IntegerObject 2 3, .BooleanObject false 4])
      = .ok (7, sampleWith [.IntegerObject 1 3, .IntegerObject 2 3, .BooleanObject false 4]) :=
  (evalIfExpression_boolean_payload sampleIni evalStored
    { Condition := 8, Consequence := 6, Alternative := some 7 } sampleScope
    (sampleWith [.IntegerObject 1 3, .IntegerObject 2 3, .BooleanObject false 4])
    (sampleWith [.IntegerObject 1 3, .IntegerObject 2 3, .BooleanObject false 4])
    8 false 4 rfl rfl).2.1 rfl 7 rfl

end Evaluator
